import Mathlib

/-!
Shallow embedding of `monte_carlo_12_queens.py`: the placement validator
`is_safe`, the valid-position scan `get_valid_positions`, the Monte Carlo
estimator `monte_carlo_estimate`, and the exact backtracking node counter
`backtracking_count_nodes`, together with theorems settling the spec's
claims about them.

Modelling conventions:
* Python lists of column assignments become `List Int`, with `-1` as the
  unplaced sentinel exactly as in the script.
* Python's global random generator becomes `RandState`: an abstract stream
  of draws plus the position of the next draw.  `random.seed s` resets the
  state to a function of the seed alone; `random.choice xs` consumes one
  draw and indexes into `xs`.  The concrete stream used by `seedState` is a
  stand-in for the Mersenne Twister (which is library code, not part of the
  repository); no theorem below depends on its particular values.
* Wall-clock times are omitted from results, but the division
  `avg_time = (end_time - start_time) / num_trials` at line 110 of the
  script is kept as the error branch it induces when `num_trials == 0`,
  and the mean `sum(estimates) / len(estimates)` at line 112 is kept as a
  rational together with the `ZeroDivisionError` it raises on an empty
  trial list.  Both exceptions are modelled by `Except.error` carrying the
  Python exception text.
* Trial estimates are Python ints that start at 1 and only grow, hence
  `Nat` in the embedding.
-/

namespace MCQueens

/-- Embedding of `is_safe(board, row, col, n)` (lines 21-41): placing a
queen at `(row, col)` is safe iff no earlier row `i < row` holds a queen in
the same column (`board[i] == col`) or on a shared diagonal
(`abs(board[i] - col) == abs(i - row)`).  The Python loop returns `False`
at the first conflict, which coincides with the `all` below.  Every call
site keeps `row <= len(board)`, so the `getD` default is never read.  The
function is pure: it only reads the board. -/
def is_safe (board : List Int) (row : Nat) (col : Int) (n : Nat) : Bool :=
  (List.range row).all fun i =>
    !(board.getD i 0 == col) &&
      !((board.getD i 0 - col).natAbs == ((i : Int) - (row : Int)).natAbs)

/-- Embedding of `get_valid_positions(board, row, n)` (lines 44-60): the
columns `0 <= col < n` for which `is_safe` approves `(row, col)`, in
ascending order. -/
def get_valid_positions (board : List Int) (row : Nat) (n : Nat) : List Nat :=
  (List.range n).filter fun (col : Nat) => is_safe board row (col : Int) n

/-- Model of the global generator of Python's `random` module: an abstract
stream of draws together with the position of the next draw. -/
structure RandState where
  stream : Nat → Nat
  pos : Nat

/-- Model of `random.seed(s)`: the generator state afterwards is a function
of the seed alone, independent of the previous state.  The concrete stream
is a stand-in for the Mersenne Twister; no theorem depends on its values. -/
def seedState (s : Nat) : RandState :=
  ⟨fun k => (1664525 * (s + k) + 1013904223) % 2 ^ 32, 0⟩

/-- Model of `random.choice(xs)` for nonempty `xs`: consume one draw from
the generator and select the element it designates. -/
def randChoice (g : RandState) (xs : List Nat) : Nat × RandState :=
  (xs.getD (g.stream g.pos % xs.length) 0, ⟨g.stream, g.pos + 1⟩)

/-- Embedding of the per-row loop of one Monte Carlo trial (lines 91-105).
`fuel` is `n - row`, so the recursion stops exactly when `row` reaches `n`
(the Python `for row in range(n)` ends) or when a row has no safe column
(the `break` at line 99).  The functional recursion passes
`board.set row c` onward, which is exactly the Python mutation
`board[row] = random.choice(valid_positions)` since siblings never observe
it inside a single trial. -/
def mcTrialGo (n : Nat) : Nat → List Int → Nat → Nat → Nat → RandState → Nat × RandState
  | 0, _, _, estimate, _, g => (estimate, g)
  | fuel + 1, board, row, estimate, product, g =>
    if (get_valid_positions board row n).length = 0 then (estimate, g)
    else
      mcTrialGo n fuel
        (board.set row ((randChoice g (get_valid_positions board row n)).1 : Int))
        (row + 1)
        (estimate + product * (get_valid_positions board row n).length)
        (product * (get_valid_positions board row n).length)
        (randChoice g (get_valid_positions board row n)).2

/-- One Monte Carlo trial (lines 87-107): fresh board `[-1] * n`,
`estimate = 1` (root node), `product = 1`, then the per-row loop.  Returns
the trial's estimate and the advanced generator state. -/
def mc_trial (n : Nat) (g : RandState) : Nat × RandState :=
  mcTrialGo n n (List.replicate n (-1 : Int)) 0 1 1 g

/-- The trial loop `for _ in range(num_trials)` (lines 86-107): runs the
given number of trials, threading the single generator state through them
in trial order, and collects the estimates in order of production. -/
def mcTrials (n : Nat) : Nat → RandState → List Nat × RandState
  | 0, g => ([], g)
  | k + 1, g =>
    ((mc_trial n g).1 :: (mcTrials n k (mc_trial n g).2).1,
      (mcTrials n k (mc_trial n g).2).2)

/-- Embedding of `monte_carlo_estimate(n, num_trials, seed)`
(lines 63-112).  `seed is not None` triggers `random.seed(seed)`;
otherwise the ambient generator state `g` is used.  After the trial loop,
`avg_time = (end_time - start_time) / num_trials` raises
`ZeroDivisionError` when `num_trials == 0`, and otherwise
`sum(estimates) / len(estimates)` raises `ZeroDivisionError` when no trial
ran (`num_trials < 0` makes `range(num_trials)` empty).  On success the
result carries the mean of the per-trial estimates and the per-trial list;
elapsed times are omitted. -/
def monte_carlo_estimate (n : Nat) (numTrials : Int) (seed : Option Nat)
    (g : RandState) : Except String (ℚ × List Nat) × RandState :=
  let g0 := match seed with
    | some s => seedState s
    | none => g
  let res := mcTrials n numTrials.toNat g0
  if numTrials = 0 then
    (Except.error ("ZeroDivisionError: float division by zero"), res.2)
  else if res.1.length = 0 then
    (Except.error ("ZeroDivisionError: division by zero"), res.2)
  else
    (Except.ok ((res.1.map fun (e : Nat) => (e : ℚ)).sum / (res.1.length : ℚ), res.1), res.2)

/-- Embedding of the inner `backtrack(board, row)` of
`backtracking_count_nodes` (lines 128-139), with the two mutable counters
threaded as the accumulator `acc = (node_count, solutions)`.  Every call
first increments the node counter; a call with `row == n` also increments
the solution counter and returns; otherwise each safe column in ascending
order is committed (`board.set row col`), recursed into, and implicitly
restored (siblings fold over the original `board`, which is exactly the
Python `board[row] = -1` since `board[row]` was `-1` on entry).  `fuel`
bounds the recursion depth; `backtracking_count_nodes` supplies
`n.toNat + 1`, which is exact since `row` grows by 1 per level and stops
at `n`. -/
def btGo (n : Int) : Nat → List Int → Nat → Nat × Nat → Nat × Nat
  | 0, _, _, acc => acc
  | fuel + 1, board, row, acc =>
    if (row : Int) = n then (acc.1 + 1, acc.2 + 1)
    else
      (List.range n.toNat).foldl
        (fun a (col : Nat) =>
          if is_safe board row (col : Int) n.toNat then
            btGo n fuel (board.set row (col : Int)) (row + 1) a
          else a) (acc.1 + 1, acc.2)

/-- Embedding of `backtracking_count_nodes(n)` (lines 115-146): board
`[-1] * n` (empty when `n <= 0`, as Python list repetition yields `[]`),
counters started at zero, search started at row 0.  Returns
`(node_count, solutions)`; the elapsed time is omitted. -/
def backtracking_count_nodes (n : Int) : Nat × Nat :=
  btGo n (n.toNat + 1) (List.replicate n.toNat (-1 : Int)) 0 (0, 0)

/-- Per-row accumulator exactly as claim C1 words it: at each row count the
safe columns `m` via the Validator over all `n` columns; if `m = 0` stop
keeping the accumulated partial sum; otherwise multiply the running
product of branching factors by `m`, add the running product to the
accumulator, commit one of the safe columns (the one the generator
designates) and continue with the next row. -/
def trialSpecGo (n : Nat) : Nat → List Int → Nat → Nat → Nat → RandState → Nat × RandState
  | 0, _, _, acc, _, g => (acc, g)
  | fuel + 1, board, row, acc, running, g =>
    if ((List.range n).countP fun (col : Nat) => is_safe board row (col : Int) n) = 0 then
      (acc, g)
    else
      trialSpecGo n fuel
        (board.set row ((randChoice g (get_valid_positions board row n)).1 : Int))
        (row + 1)
        (acc + running * ((List.range n).countP fun (col : Nat) => is_safe board row (col : Int) n))
        (running * ((List.range n).countP fun (col : Nat) => is_safe board row (col : Int) n))
        (randChoice g (get_valid_positions board row n)).2

/-- The accumulator of claim C1 for a whole trial: seeded at 1 (the root),
rows processed from 0 upward on a fresh board. -/
def trialSpec (n : Nat) (g : RandState) : Nat × RandState :=
  trialSpecGo n n (List.replicate n (-1 : Int)) 0 1 1 g

/-- The sequence of per-trial accumulators described by claim C1, with the
single generator state threaded through the trials in order. -/
def specTrials (n : Nat) : Nat → RandState → List Nat
  | 0, _ => []
  | k + 1, g => (trialSpec n g).1 :: specTrials n k (trialSpec n g).2

/-- Column relabeling `c -> n-1-c` applied to every placed entry of a
board; the unplaced sentinel `-1` is kept, as claim C9 words it. -/
def reflectBoard (n : Nat) (board : List Int) : List Int :=
  board.map fun c => if c = -1 then -1 else (n : Int) - 1 - c


/-- Claim C2: for every board, every row in [0, n), every col, `is_safe` returns
true iff no earlier row `i < row` has `board[i] == col` or
`|board[i] - col| == |i - row|`; the embedding is a pure function, so the
call leaves the board unchanged. -/
theorem c2_is_safe_iff (board : List Int) (row : Nat) (col : Int) (n : Nat)
    (hrow : row ≤ board.length) (hn : row < n) :
    is_safe board row col n = true ↔
      ∀ i, i < row → board.getD i 0 ≠ col ∧
        (board.getD i 0 - col).natAbs ≠ ((i : Int) - (row : Int)).natAbs := by
  simp [is_safe, List.all_eq_true, List.mem_range]

theorem c2_is_safe_iff_witness :
    is_safe [1, 3] 2 0 4 = true ↔
      ∀ i, i < 2 → ([1, 3] : List Int).getD i 0 ≠ 0 ∧
        (([1, 3] : List Int).getD i 0 - 0).natAbs ≠ ((i : Int) - (2 : Int)).natAbs :=
  c2_is_safe_iff [1, 3] 2 0 4 (by decide) (by decide)

/-- A fold step that never increases the solution counter by more than the
node counter, iterated over a whole list, keeps that property. -/
theorem foldl_gain (f : Nat × Nat → Nat → Nat × Nat)
    (hf : ∀ a c, (f a c).2 + a.1 ≤ (f a c).1 + a.2) :
    ∀ (l : List Nat) (a : Nat × Nat),
      (l.foldl f a).2 + a.1 ≤ (l.foldl f a).1 + a.2 := by
  intro l
  induction l with
  | nil => intro a; simp only [List.foldl_nil]; omega
  | cons c cs ih =>
    intro a
    have h1 := hf a c
    have h2 := ih (f a c)
    simp only [List.foldl_cons]
    omega

/-- Across any call of the search core, the solution counter gains at most
as much as the node counter. -/
theorem btGo_gain (n : Int) :
    ∀ (fuel : Nat) (board : List Int) (row : Nat) (acc : Nat × Nat),
      (btGo n fuel board row acc).2 + acc.1 ≤ (btGo n fuel board row acc).1 + acc.2 := by
  intro fuel
  induction fuel with
  | zero => intro board row acc; simp only [btGo]; omega
  | succ f ih =>
    intro board row acc
    simp only [btGo]
    split
    · omega
    · have h := foldl_gain
        (fun a (col : Nat) =>
          if is_safe board row (col : Int) n.toNat then
            btGo n f (board.set row (col : Int)) (row + 1) a
          else a)
        (fun a c => by
          dsimp only
          split
          · exact ih (board.set row (c : Int)) (row + 1) a
          · omega)
        (List.range n.toNat) (acc.1 + 1, acc.2)
      omega

/-- Claim C4: for every n >= 1 the exact counter's node count is at least its
solution count. -/
theorem c4_nodes_ge_solutions (n : Int) (hn : 1 ≤ n) :
    (backtracking_count_nodes n).2 ≤ (backtracking_count_nodes n).1 := by
  have h := btGo_gain n (n.toNat + 1) (List.replicate n.toNat (-1 : Int)) 0 (0, 0)
  simpa [backtracking_count_nodes] using h

theorem c4_nodes_ge_solutions_witness :
    (backtracking_count_nodes 4).2 ≤ (backtracking_count_nodes 4).1 :=
  c4_nodes_ge_solutions 4 (by decide)


/-- Claim C7 counterexample: at n = -1 the exact counter returns node count 1 and
solution count 0 — not the claimed node count 1 with solution count 1, and
not a rejection (the function is total and returns a value). -/
theorem c7_counterexample :
    backtracking_count_nodes (-1) = (1, 0) ∧
      backtracking_count_nodes (-1) ≠ (1, 1) := by
  constructor
  · decide
  · decide

/-- Claim C7 amended: for every n <= 0 the exact counter returns node count 1,
and solution count 1 when n = 0 but 0 when n < 0; it never rejects. -/
theorem c7_amended (n : Int) (hn : n ≤ 0) :
    backtracking_count_nodes n = (1, if n = 0 then 1 else 0) := by
  have h0 : n.toNat = 0 := Int.toNat_of_nonpos hn
  unfold backtracking_count_nodes btGo
  rw [h0]
  by_cases h : n = 0
  · simp [h]
  · simp [h]
    intro hc
    exact absurd hc.symm h

theorem c7_amended_witness :
    backtracking_count_nodes (-2) = (1, if (-2 : Int) = 0 then 1 else 0) :=
  c7_amended (-2) (by decide)

/-- The code's per-row trial loop computes exactly the accumulator the
specification describes: the branching factor the code takes as the length
of the valid-position list is the count of safe columns over all n
columns, and both commit the same randomly designated safe column. -/
theorem mcTrialGo_eq_trialSpecGo (n : Nat) :
    ∀ (fuel : Nat) (board : List Int) (row : Nat) (est prod : Nat) (g : RandState),
      mcTrialGo n fuel board row est prod g = trialSpecGo n fuel board row est prod g := by
  intro fuel
  induction fuel with
  | zero => intro board row est prod g; rfl
  | succ f ih =>
    intro board row est prod g
    have hm : ((List.range n).countP fun (col : Nat) => is_safe board row (col : Int) n)
        = (get_valid_positions board row n).length := by
      simp [get_valid_positions, List.countP_eq_length_filter]
    simp only [mcTrialGo, trialSpecGo, hm]
    split
    · rfl
    · exact ih _ _ _ _ _

/-- One code trial equals one spec-described trial. -/
theorem mc_trial_eq_trialSpec (n : Nat) (g : RandState) :
    mc_trial n g = trialSpec n g :=
  mcTrialGo_eq_trialSpecGo n n (List.replicate n (-1 : Int)) 0 1 1 g

/-- Claim C1: for every n >= 0 and every sequence of random choices (any
generator state), the per-trial values produced by the trial loop of
monte_carlo_estimate are exactly the accumulators described by the
specification: seeded at 1 for the root, at each row the safe columns are
counted via the Validator over all n columns, a zero count ends the trial
with the accumulated partial sum, and otherwise the running product of
branching factors is multiplied by the count, added to the accumulator,
and one safe column is committed before moving to the next row. -/
theorem c1_per_trial_values (n k : Nat) (g : RandState) :
    (mcTrials n k g).1 = specTrials n k g := by
  induction k generalizing g with
  | zero => rfl
  | succ k ih =>
    simp only [mcTrials, specTrials, mc_trial_eq_trialSpec, ih]

/-- Claim C5: with a non-None seed, two invocations of monte_carlo_estimate on
the same n and numTrials produce the same result — the same perTrial
sequence and hence the same average — whatever the ambient generator
states were before each call, because random.seed(seed) resets the
generator to a state determined by the seed alone. -/
theorem c5_seed_determinism (n : Nat) (k : Int) (s : Nat) (g g' : RandState)
    (hk : 1 ≤ k) :
    (monte_carlo_estimate n k (some s) g).1 = (monte_carlo_estimate n k (some s) g').1 := rfl

theorem c5_seed_determinism_witness :
    (monte_carlo_estimate 2 1 (some 0) ⟨fun _ => 0, 0⟩).1 =
      (monte_carlo_estimate 2 1 (some 0) ⟨fun j => j + 1, 7⟩).1 :=
  c5_seed_determinism 2 1 0 ⟨fun _ => 0, 0⟩ ⟨fun j => j + 1, 7⟩ (by decide)

/-- The estimate accumulator of the per-row loop never decreases. -/
theorem mcTrialGo_le (n : Nat) :
    ∀ (fuel : Nat) (board : List Int) (row : Nat) (est prod : Nat) (g : RandState),
      est ≤ (mcTrialGo n fuel board row est prod g).1 := by
  intro fuel
  induction fuel with
  | zero => intro board row est prod g; exact Nat.le_refl est
  | succ f ih =>
    intro board row est prod g
    simp only [mcTrialGo]
    split
    · exact Nat.le_refl est
    · exact Nat.le_trans (Nat.le_add_right est _) (ih _ _ _ _ _)

/-- At row 0 the board is all-unplaced, so every one of the n columns is
safe: the first valid-position scan returns all of them. -/
theorem get_valid_positions_row_zero (n : Nat) (board : List Int) :
    get_valid_positions board 0 n = List.range n := by
  unfold get_valid_positions
  apply List.filter_eq_self.mpr
  intro a _
  rfl

/-- Claim C10: for every n >= 1 and every sequence of random choices, each
per-trial value is at least 1 + n: the first branching factor is exactly n
(all n columns are safe on the empty board) and the accumulator only grows
afterwards.  Values are natural numbers by construction, matching the
claim that they are integers. -/
theorem c10_trial_lower_bound (n : Nat) (g : RandState) (hn : 1 ≤ n) :
    1 + n ≤ (mc_trial n g).1 := by
  obtain ⟨m, rfl⟩ : ∃ m, n = m + 1 := ⟨n - 1, by omega⟩
  unfold mc_trial
  simp only [mcTrialGo, get_valid_positions_row_zero, List.length_range]
  split
  · omega
  · have h := mcTrialGo_le (m + 1) m
      ((List.replicate (m + 1) (-1 : Int)).set 0
        ((randChoice g (List.range (m + 1))).1 : Int))
      1 (1 + 1 * (m + 1)) (1 * (m + 1)) (randChoice g (List.range (m + 1))).2
    calc 1 + (m + 1) = 1 + 1 * (m + 1) := by ring
    _ ≤ _ := h

theorem c10_trial_lower_bound_witness :
    1 + 4 ≤ (mc_trial 4 ⟨fun _ => 0, 0⟩).1 :=
  c10_trial_lower_bound 4 ⟨fun _ => 0, 0⟩ (by decide)

/-- On a one-column board the single trial row always finds exactly the
one safe column, so every trial's estimate is 1 (root) + 1 = 2. -/
theorem mc_trial_one (g : RandState) :
    mc_trial 1 g = (2, ⟨g.stream, g.pos + 1⟩) := by
  have hv : get_valid_positions [-1] 0 1 = [0] := rfl
  simp [mc_trial, mcTrialGo, List.replicate, hv, randChoice, Nat.mod_one]

/-- Every trial on a 1x1 board contributes the estimate 2. -/
theorem mcTrials_one (k : Nat) : ∀ g : RandState, (mcTrials 1 k g).1 = List.replicate k 2 := by
  induction k with
  | zero => intro g; rfl
  | succ k ih =>
    intro g
    simp only [mcTrials, mc_trial_one, ih, List.replicate]

/-- Claim C6 counterexample: estimate(1, 1, 0) yields the per-trial sequence [2]
and the average 2, not per-trial value 1 and average 1 as claimed: the
root contributes 1 and the single safe column contributes the branching
factor 1 on top of it. -/
theorem c6_counterexample :
    (monte_carlo_estimate 1 1 (some 0) ⟨fun _ => 0, 0⟩).1 =
        Except.ok ((2 : ℚ), [2]) ∧
      (monte_carlo_estimate 1 1 (some 0) ⟨fun _ => 0, 0⟩).1 ≠
        Except.ok ((1 : ℚ), [1]) := by
  have h : (monte_carlo_estimate 1 1 (some 0) ⟨fun _ => 0, 0⟩).1 =
      Except.ok ((2 : ℚ), [2]) := by
    have h1 : (mcTrials 1 1 (seedState 0)).1 = [2] := mcTrials_one 1 (seedState 0)
    simp [monte_carlo_estimate, h1]
  refine ⟨h, ?_⟩
  rw [h]
  intro hc
  have h2 : ((2 : ℚ), ([2] : List Nat)) = ((1 : ℚ), ([1] : List Nat)) :=
    Except.ok.inj hc
  have h3 : (2 : ℚ) = 1 := congrArg Prod.fst h2
  norm_num at h3

/-- Claim C6 amended: for n = 1, every numTrials k >= 1 and every seed (including
None), estimate(1, k, seed) returns an average of exactly 2 and every
per-trial value equals exactly 2. -/
theorem c6_amended (k : Int) (seed : Option Nat) (g : RandState) (hk : 1 ≤ k) :
    (monte_carlo_estimate 1 k seed g).1 =
      Except.ok ((2 : ℚ), List.replicate k.toNat 2) := by
  have hk0 : k ≠ 0 := by omega
  have hkt : k.toNat ≠ 0 := by omega
  have hq : ((k.toNat : ℚ)) ≠ 0 := by exact_mod_cast hkt
  simp only [monte_carlo_estimate, mcTrials_one, if_neg hk0, List.length_replicate,
    if_neg hkt, List.map_replicate, List.sum_replicate, nsmul_eq_mul, Nat.cast_ofNat]
  rw [mul_comm, mul_div_assoc, div_self hq, mul_one]

theorem c6_amended_witness :
    (monte_carlo_estimate 1 3 (some 42) ⟨fun _ => 0, 0⟩).1 =
      Except.ok ((2 : ℚ), List.replicate (3 : Int).toNat 2) :=
  c6_amended 3 (some 42) ⟨fun _ => 0, 0⟩ (by decide)

/-- Claim C8: with numTrials = 0 the call dies at the average-trial-time division
(`(end_time - start_time) / num_trials`), and with negative numTrials the
trial loop runs zero times and the mean `sum(estimates) / len(estimates)`
divides by the empty length: both ways the caller gets a bare
ZeroDivisionError, not a descriptive precondition failure. -/
theorem c8_zero_trials_division_error :
    (monte_carlo_estimate 4 0 none ⟨fun _ => 0, 0⟩).1 =
        Except.error ("ZeroDivisionError: float division by zero") ∧
      (monte_carlo_estimate 4 (-3) none ⟨fun _ => 0, 0⟩).1 =
        Except.error ("ZeroDivisionError: division by zero") := by
  constructor
  · rfl
  · rfl

/-- Characterization of the validator as a statement about all earlier
rows; shared by the reflection-symmetry proofs. -/
theorem is_safe_iff (board : List Int) (row : Nat) (col : Int) (n : Nat) :
    is_safe board row col n = true ↔
      ∀ i, i < row → board.getD i 0 ≠ col ∧
        (board.getD i 0 - col).natAbs ≠ ((i : Int) - (row : Int)).natAbs := by
  simp [is_safe, List.all_eq_true, List.mem_range]

/-- Reading a reflected board below its length gives the relabeled entry. -/
theorem reflectBoard_getD (n : Nat) (board : List Int) (i : Nat)
    (h : i < board.length) :
    (reflectBoard n board).getD i 0 =
      if board.getD i 0 = -1 then -1 else (n : Int) - 1 - board.getD i 0 := by
  have hm : i < (reflectBoard n board).length := by
    simpa [reflectBoard] using h
  rw [List.getD_eq_getElem _ _ hm, List.getD_eq_getElem _ _ h]
  simp [reflectBoard]

/-- Claim C9 counterexample: with the unplaced sentinel -1 sitting in a row below
`row`, reflection flips the verdict, because the sentinel is kept as -1
rather than relabeled: on board [-1] with row 1, column 0 is diagonally
attacked by the sentinel read as a queen in column -1, while after
reflection column n-1-0 = 1 is not attacked by -1. -/
theorem c9_counterexample :
    is_safe [-1] 1 0 2 = false ∧
      is_safe (reflectBoard 2 [-1]) 1 ((2 : Int) - 1 - 0) 2 = true := by
  constructor
  · decide
  · decide

/-- Claim C9 amended: is_safe is invariant under column reflection provided every
row below `row` holds a placed queen (no -1 sentinel among rows
0..row-1, which is the Board invariant during search): for such boards,
is_safe(board, row, col, n) = is_safe(board', row, n-1-col, n) where
board' replaces every placed entry c by n-1-c. -/
theorem c9_amended (n : Nat) (board : List Int) (row : Nat) (col : Int)
    (hrow : row ≤ board.length)
    (hplaced : ∀ i, i < row → board.getD i 0 ≠ -1) :
    is_safe board row col n =
      is_safe (reflectBoard n board) row ((n : Int) - 1 - col) n := by
  rw [Bool.eq_iff_iff, is_safe_iff, is_safe_iff]
  constructor
  · intro h i hi
    obtain ⟨h1, h2⟩ := h i hi
    have hb := hplaced i hi
    have hr : (reflectBoard n board).getD i 0 = (n : Int) - 1 - board.getD i 0 := by
      rw [reflectBoard_getD n board i (lt_of_lt_of_le hi hrow), if_neg hb]
    rw [hr]
    refine ⟨fun hc => h1 (by omega), ?_⟩
    have he : (n : Int) - 1 - board.getD i 0 - ((n : Int) - 1 - col)
        = -(board.getD i 0 - col) := by ring
    rw [he, Int.natAbs_neg]
    exact h2
  · intro h i hi
    obtain ⟨h1, h2⟩ := h i hi
    have hb := hplaced i hi
    have hr : (reflectBoard n board).getD i 0 = (n : Int) - 1 - board.getD i 0 := by
      rw [reflectBoard_getD n board i (lt_of_lt_of_le hi hrow), if_neg hb]
    rw [hr] at h1 h2
    refine ⟨fun hc => h1 (by omega), fun hc => h2 ?_⟩
    have he : (n : Int) - 1 - board.getD i 0 - ((n : Int) - 1 - col)
        = -(board.getD i 0 - col) := by ring
    rw [he, Int.natAbs_neg]
    exact hc

theorem c9_amended_witness :
    is_safe [1, 3] 2 0 4 =
      is_safe (reflectBoard 4 [1, 3]) 2 ((4 : Int) - 1 - 0) 4 :=
  c9_amended 4 [1, 3] 2 0 (by decide) (by decide)

set_option maxRecDepth 100000 in
set_option maxHeartbeats 4000000 in
/-- Claim C3: the exact counter reproduces the known N-Queens solution counts
for n = 1, 2, 3, 4, 5, 6 and 8 (1, 0, 0, 2, 10, 4 and 92 solutions). -/
theorem c3_solution_counts :
    (backtracking_count_nodes 1).2 = 1 ∧ (backtracking_count_nodes 2).2 = 0 ∧
      (backtracking_count_nodes 3).2 = 0 ∧ (backtracking_count_nodes 4).2 = 2 ∧
      (backtracking_count_nodes 5).2 = 10 ∧ (backtracking_count_nodes 6).2 = 4 ∧
      (backtracking_count_nodes 8).2 = 92 := by
  refine ⟨by decide, by decide, by decide, by decide, by decide, by decide, ?_⟩
  decide

end MCQueens
